import Mathlib

/-!
# Verification of the WASP controller protocol engine

A shallow embedding, in Lean 4, of the protocol engine of the `wasp-controller`
repository (`src/wasp/server.py`, `src/wasp/wasp_types.py`,
`src/wasp/wasp_commands.py`), together with theorems settling the spec claims
about it.

Bytes are modelled as `Nat` values below 256; byte strings as `List Nat`.
A socket is modelled as the finite list of bytes that will ever arrive on it:
`recv n` returns the first `min n available` bytes (an exhausted stream returns
the empty list, the way a closed Python socket does).  UTF-8 decoding is
modelled on its ASCII subset: the embedding treats any byte ≥ 128 in a frame
body as undecodable, and every theorem that quantifies over frame bodies
restricts them to ASCII so the model and the code agree.
-/

namespace Wasp

/-- The fixed 255-byte keystream (`cipher_bytes` in `src/wasp/server.py`). -/
def cipher_bytes : List Nat :=
  [247, 224, 201, 178, 155, 132, 109, 86, 63, 40, 17, 249, 226, 203, 180, 157,
   134, 111, 88, 65, 42, 19, 251, 228, 205, 182, 159, 136, 113, 90, 67, 44,
   21, 253, 230, 207, 184, 161, 138, 115, 92, 69, 46, 23, 0, 232, 209, 186,
   163, 140, 117, 94, 71, 48, 25, 2, 234, 211, 188, 165, 142, 119, 96, 73,
   50, 27, 4, 236, 213, 190, 167, 144, 121, 98, 75, 52, 29, 6, 238, 215,
   192, 169, 146, 123, 100, 77, 54, 31, 8, 240, 217, 194, 171, 148, 125, 102,
   79, 56, 33, 10, 242, 219, 196, 173, 150, 127, 104, 81, 58, 35, 12, 244,
   221, 198, 175, 152, 129, 106, 83, 60, 37, 14, 246, 223, 200, 177, 154, 131,
   108, 85, 62, 39, 16, 248, 225, 202, 179, 156, 133, 110, 87, 64, 41, 18,
   250, 227, 204, 181, 158, 135, 112, 89, 66, 43, 20, 252, 229, 206, 183, 160,
   137, 114, 91, 68, 45, 22, 254, 231, 208, 185, 162, 139, 116, 93, 70, 47,
   24, 1, 233, 210, 187, 164, 141, 118, 95, 72, 49, 26, 3, 235, 212, 189,
   166, 143, 120, 97, 74, 51, 28, 5, 237, 214, 191, 168, 145, 122, 99, 76,
   53, 30, 239, 216, 193, 170, 147, 124, 101, 78, 55, 32, 9, 241, 218, 195,
   172, 149, 126, 103, 80, 57, 34, 11, 243, 220, 197, 174, 151, 128, 105, 82,
   59, 36, 13, 245, 222, 199, 176, 153, 130, 107, 84, 61, 38, 15, 247]

/-- Cipher state: `WaspCipher` (no-op) or `WaspSimpleCipher` with its rolling
offset (`src/wasp/server.py`, classes `WaspCipher` / `WaspSimpleCipher`). -/
inductive WaspCipherSt where
  | empty : WaspCipherSt
  | simple (offset : Nat) : WaspCipherSt
deriving DecidableEq, Repr

/-- The byte loop of `WaspSimpleCipher.cipher`: each output byte is the input
byte XORed with `cipher_bytes[offset]`, and the offset advances by one modulo
the keystream length after every byte.  Returns the output bytes and the final
offset. -/
def simpleCipherGo (offset : Nat) (data : List Nat) : List Nat × Nat :=
  match data with
  | [] => ([], offset)
  | b :: rest =>
      let out := b ^^^ cipher_bytes.getD offset 0
      let offset' := (offset + 1) % cipher_bytes.length
      let r := simpleCipherGo offset' rest
      (out :: r.1, r.2)

/-- `cipher(data)` for either cipher kind: the no-op cipher returns the data
unchanged with unchanged state; the simple cipher XOR-streams it. -/
def cipherRun : WaspCipherSt → List Nat → List Nat × WaspCipherSt
  | .empty, data => (data, .empty)
  | .simple off, data =>
      let r := simpleCipherGo off data
      (r.1, .simple r.2)

/-- `struct.pack("!H", n)`: 2-byte big-endian encoding (all uses stay below
65536, where Python would raise instead of wrapping). -/
def packU16 (n : Nat) : List Nat := [n / 256 % 256, n % 256]

/-- `struct.pack("!I", n)`: 4-byte big-endian encoding. -/
def packU32 (n : Nat) : List Nat :=
  [n / 2 ^ 24 % 256, n / 2 ^ 16 % 256, n / 2 ^ 8 % 256, n % 256]

/-- Outcome of `WaspServer.receive_chunks` on a finite stream. -/
inductive ChunkOutcome where
  /-- Normal return: accumulated bytes, final inbound cipher state, and the
  part of the stream not consumed. -/
  | ok (data : List Nat) (c : WaspCipherSt) (rest : List Nat)
  /-- `WaspException`: `recv(2)` returned no bytes (stream exhausted). -/
  | errNoLength
  /-- `WaspException`: deciphering the length yielded no bytes (dead branch:
  the cipher preserves length). -/
  | errNoDecrypt
  /-- `struct.error`: `recv(2)` returned a single byte, so `unpack("!H")`
  fails. -/
  | errStruct
deriving DecidableEq, Repr

/-- The loop of `WaspServer.receive_chunks` (`src/wasp/server.py:213`): read a
2-byte ciphered length; 0 terminates; otherwise read that many bytes (fewer if
the stream is short — `recv` is not retried), decipher, append, repeat. -/
def receiveChunksGo (c : WaspCipherSt) (stream acc : List Nat) : ChunkOutcome :=
  match stream with
  | [] => .errNoLength
  | [_] => .errStruct
  | b0 :: b1 :: rest =>
      let r := cipherRun c [b0, b1]
      if r.1 = [] then .errNoDecrypt
      else
        let len := r.1.getD 0 0 * 256 + r.1.getD 1 0
        if len = 0 then .ok acc r.2 rest
        else
          let body := rest.take len
          let rb := cipherRun r.2 body
          receiveChunksGo rb.2 (rest.drop len) (acc ++ rb.1)
termination_by stream.length
decreasing_by
  simp only [List.length_drop, List.length_cons]
  omega

/-- `WaspServer.receive_chunks`. -/
def receiveChunks (c : WaspCipherSt) (stream : List Nat) : ChunkOutcome :=
  receiveChunksGo c stream []

/-- The while-loop of `WaspServer.send_chunks` (`src/wasp/server.py:239`): the
data is cut into pieces of at most 255 bytes; for each piece the 2-byte length
is packed and run through the cipher, but the PLAIN packed length is what is
sent (`sendall(chunk_size_packed)` — the ciphered copy is discarded), followed
by the ciphered piece.  Returns the wire bytes and the final outbound cipher
state. -/
def sendChunksGo (c : WaspCipherSt) (remaining : List Nat) :
    List Nat × WaspCipherSt :=
  if h : remaining = [] then ([], c)
  else
    let chunk := remaining.take 255
    let sizePacked := packU16 chunk.length
    let afterSize := (cipherRun c sizePacked).2
    let enc := cipherRun afterSize chunk
    let r := sendChunksGo enc.2 (remaining.drop 255)
    (sizePacked ++ enc.1 ++ r.1, r.2)
termination_by remaining.length
decreasing_by
  have hl : 0 < remaining.length := List.length_pos.mpr h
  simp only [List.length_drop]
  omega

/-- `WaspServer.send_chunks`: the chunk records followed by the ciphered
zero-length terminator record (the terminator IS sent ciphered, unlike the
per-chunk lengths). -/
def sendChunks (c : WaspCipherSt) (data : List Nat) : List Nat × WaspCipherSt :=
  let r := sendChunksGo c data
  let encTerm := cipherRun r.2 (packU16 0)
  (r.1 ++ encTerm.1, encTerm.2)

/-- A JSON value, as produced by `json.loads`.  Numbers are modelled as
integers (no envelope field in this protocol carries a fraction or
exponent). -/
inductive Json where
  | null : Json
  | bool (b : Bool) : Json
  | num (n : Int) : Json
  | str (s : String) : Json
  | arr (items : List Json) : Json
  | obj (fields : List (String × Json)) : Json

/-- `dict.get(k)` on a decoded JSON object: Python's `json.loads` keeps the
last of duplicate keys, so the lookup scans from the right. -/
def dictGet (fields : List (String × Json)) (k : String) : Option Json :=
  (fields.reverse.find? (fun p => p.1 = k)).map Prod.snd

/-- `bytes.decode("utf-8")`, restricted to the ASCII subset: any byte ≥ 128 is
treated as undecodable (theorems over arbitrary bodies add an ASCII
hypothesis so model and code agree). -/
def bytesToAscii (bs : List Nat) : Option (List Char) :=
  if bs.all (· < 128) then some (bs.map (fun b => Char.ofNat b)) else none

def isWs (c : Char) : Bool :=
  c = ' ' ∨ c = '\n' ∨ c = '\t' ∨ c = '\r'

def skipWs : List Char → List Char
  | [] => []
  | c :: rest => if isWs c then skipWs rest else c :: rest

/-- A JSON string literal body, after the opening quote.  Escapes are not
modelled (no envelope in this protocol uses them): a backslash or control
character fails the parse. -/
def stringLit : List Char → Option (String × List Char)
  | [] => none
  | c :: rest =>
      if c = Char.ofNat 34 then some ("", rest)
      else if c = '\\' ∨ c.toNat < 32 then none
      else (stringLit rest).map (fun r => (⟨c :: r.1.data⟩, r.2))

def digitsToNat (acc : Nat) : List Char → Nat × List Char
  | [] => (acc, [])
  | c :: rest =>
      if c.isDigit then digitsToNat (acc * 10 + (c.toNat - 48)) rest
      else (acc, c :: rest)

/-- A JSON number: optional minus sign followed by digits. -/
def numberLit (cs : List Char) : Option (Int × List Char) :=
  match cs with
  | [] => none
  | c :: rest =>
      if c = '-' then
        match rest with
        | d :: _ =>
            if d.isDigit then
              let r := digitsToNat 0 rest
              some (-(r.1 : Int), r.2)
            else none
        | [] => none
      else if c.isDigit then
        let r := digitsToNat 0 cs
        some ((r.1 : Int), r.2)
      else none

/-- Parsing mode: a plain value, the items of an array after `[`, or the
members of an object after `{`. -/
inductive PMode where
  | value : PMode
  | arrItems (acc : List Json) : PMode
  | objMembers (acc : List (String × Json)) : PMode

/-- Fuel-indexed recursive-descent JSON parse (the model of `json.loads`).
Returns the value and the unconsumed characters. -/
def parseF : Nat → PMode → List Char → Option (Json × List Char)
  | 0, _, _ => none
  | fuel + 1, .value, cs =>
      match skipWs cs with
      | [] => none
      | c :: rest =>
          if c = '{' then
            match skipWs rest with
            | '}' :: rest1 => some (.obj [], rest1)
            | _ => parseF fuel (.objMembers []) rest
          else if c = '[' then
            match skipWs rest with
            | ']' :: rest1 => some (.arr [], rest1)
            | _ => parseF fuel (.arrItems []) rest
          else if c = Char.ofNat 34 then
            (stringLit rest).map (fun r => (.str r.1, r.2))
          else if c = 't' then
            match rest with
            | 'r' :: 'u' :: 'e' :: rest1 => some (.bool true, rest1)
            | _ => none
          else if c = 'f' then
            match rest with
            | 'a' :: 'l' :: 's' :: 'e' :: rest1 => some (.bool false, rest1)
            | _ => none
          else if c = 'n' then
            match rest with
            | 'u' :: 'l' :: 'l' :: rest1 => some (.null, rest1)
            | _ => none
          else
            (numberLit (c :: rest)).map (fun r => (.num r.1, r.2))
  | fuel + 1, .arrItems acc, cs =>
      match parseF fuel .value cs with
      | none => none
      | some (v, rest) =>
          match skipWs rest with
          | ',' :: rest1 => parseF fuel (.arrItems (acc ++ [v])) rest1
          | ']' :: rest1 => some (.arr (acc ++ [v]), rest1)
          | _ => none
  | fuel + 1, .objMembers acc, cs =>
      match skipWs cs with
      | c :: rest =>
          if c = Char.ofNat 34 then
            match stringLit rest with
            | none => none
            | some (k, rest1) =>
                match skipWs rest1 with
                | ':' :: rest2 =>
                    match parseF fuel .value rest2 with
                    | none => none
                    | some (v, rest3) =>
                        match skipWs rest3 with
                        | ',' :: rest4 =>
                            parseF fuel (.objMembers (acc ++ [(k, v)])) rest4
                        | '}' :: rest4 => some (.obj (acc ++ [(k, v)]), rest4)
                        | _ => none
                | _ => none
          else none
      | [] => none

/-- `json.loads` on a character sequence: the whole input must be one JSON
value, up to whitespace. -/
def jsonLoads (cs : List Char) : Option Json :=
  match parseF (2 * cs.length + 2) .value cs with
  | some (v, rest) => if skipWs rest = [] then some v else none
  | none => none

/-- `struct.unpack("!I", b)` on exactly four bytes. -/
def unpackU32 (b : List Nat) : Nat :=
  b.getD 0 0 * 2 ^ 24 + b.getD 1 0 * 2 ^ 16 + b.getD 2 0 * 2 ^ 8 + b.getD 3 0

/-- Outcome of `WaspServer.receive_result` on a finite stream. -/
inductive ReceiveOutcome where
  /-- `WaspException`: `recv(4)` returned no bytes. -/
  | errNoLength
  /-- `WaspException`: deciphered length empty (dead branch). -/
  | errNoDecrypt
  /-- `struct.error`: fewer than 4 length bytes arrived. -/
  | errStruct
  /-- `return None`: a decoded length of 0 ("Empty response"). -/
  | noContent
  /-- Uncaught `UnicodeDecodeError`: body not decodable as text. -/
  | errUnicode
  /-- `WaspException("Should be in chunked mode, but we aren't")`: the body is
  not valid JSON (`json.JSONDecodeError` caught). -/
  | errNotJson
  /-- Uncaught `AttributeError`: the decoded JSON is not an object (or its
  `headers` member is not an object), so `.get` fails. -/
  | errAttr
  /-- A `WaspException`/`struct.error` raised inside `receive_chunks`. -/
  | errChunk (e : ChunkOutcome)
  /-- A `WaspResponse`: the decoded envelope, its payload bytes, the final
  inbound cipher state and the unconsumed stream. -/
  | ok (metadata : Json) (data : List Nat) (c : WaspCipherSt) (rest : List Nat)

/-- `response.get("headers", {}).get("Transfer-Encoding")` — `none` when the
response or its `headers` member is not an object (Python raises
`AttributeError` there). -/
def transferEncoding (meta : Json) : Option (Option Json) :=
  match meta with
  | .obj fields =>
      match dictGet fields "headers" with
      | none => some none
      | some (.obj hf) => some (dictGet hf "Transfer-Encoding")
      | some _ => none
  | _ => none

/-- The Python comparison `... == "chunked"`: true exactly when the header
value is the JSON string `"chunked"`. -/
def isChunkedVal : Option Json → Bool
  | some (.str s) => s = "chunked"
  | _ => false

/-- `WaspServer.receive_result` (`src/wasp/server.py:182`): read 4 ciphered
length bytes; length 0 is the valid no-content outcome; otherwise read the
body (`recv` is not retried, so a short stream yields a short body), decipher,
parse as JSON, and fetch the chunked payload when the envelope declares
`Transfer-Encoding: chunked`. -/
def receiveResult (c : WaspCipherSt) (stream : List Nat) : ReceiveOutcome :=
  let got := stream.take 4
  if got = [] then .errNoLength
  else
    let r := cipherRun c got
    if r.1 = [] then .errNoDecrypt
    else if got.length < 4 then .errStruct
    else
      let len := unpackU32 r.1
      if len = 0 then .noContent
      else
        let rest := stream.drop 4
        let body := rest.take len
        let rb := cipherRun r.2 body
        let rest2 := rest.drop len
        match bytesToAscii rb.1 with
        | none => .errUnicode
        | some chars =>
            match jsonLoads chars with
            | none => .errNotJson
            | some meta =>
                match transferEncoding meta with
                | none => .errAttr
                | some te =>
                    if isChunkedVal te then
                      match receiveChunks rb.2 rest2 with
                      | .ok d c2 rest3 => .ok meta d c2 rest3
                      | e => .errChunk e
                    else .ok meta [] rb.2 rest2

/-- The command variants of `src/wasp/wasp_commands.py`.  `download` carries
the class-attribute fields `breakpoint` / `start` / `end` explicitly; its
constructor takes only the path and leaves them at the class defaults
true / 0 / 1024, so those are the only values a constructed instance can
hold. -/
inductive WaspCmd where
  | handshake : WaspCmd
  | download (path : String) (breakpoint : Bool) (start : Int) (stop : Int) :
      WaspCmd
  | filelist (path : String) : WaspCmd
  | execute (command : String) : WaspCmd
  | proxy (reverse_port : Int) (destination_host : String)
      (destination_port : Int) : WaspCmd
deriving DecidableEq, Repr

/-- `WaspCommandDownload.__init__`: only the path is a parameter; the other
fields keep the class defaults. -/
def mkDownload (path : String) : WaspCmd := .download path true 0 1024

/-- `get_dict` of each variant: the wire envelope as a JSON document, fields
in source order. -/
def getDict : WaspCmd → Json
  | .handshake => .obj [("uri", .str "handshake")]
  | .download path bp st en =>
      .obj [("uri", .str "download"),
        ("headers", .obj [("File-Path", .str path), ("Break-Point", .bool bp),
          ("Begin-Position", .num st), ("End-Position", .num en)])]
  | .filelist path =>
      .obj [("uri", .str "filelist"),
        ("headers", .obj [("File-Path", .str path)])]
  | .execute cmd =>
      .obj [("uri", .str "command"),
        ("headers", .obj [("Command-Line", .str cmd)])]
  | .proxy rp dh dp =>
      .obj [("uri", .str "proxy"),
        ("headers", .obj [("Reverse-Port", .num rp), ("Dest-Host", .str dh),
          ("Dest-Port", .num dp)])]

/-- How `WaspCommand.unpack` / the variants' `from_dict` can fail. -/
inductive UnpackErr where
  /-- `WaspException("No URI, Is this a WaspCommand JSON?")` (also stands for
  the `AttributeError` of `.get` on a non-object). -/
  | noUri
  /-- `WaspException("Unimplmented command")`: verb not in the registry. -/
  | unimplemented
  /-- `NotImplementedError`: the base `from_dict` — `WaspCommandHandshake`
  does not override it. -/
  | notImplementedError
  /-- `KeyError`/`TypeError` while extracting a header field (the model is
  type-strict where Python would fail later, e.g. in `Path(...)`). -/
  | keyError
deriving DecidableEq, Repr

/-- Python truthiness of a decoded JSON value (`if not uri`). -/
def jsonFalsy : Json → Bool
  | .null => true
  | .bool b => !b
  | .num n => n = 0
  | .str s => s = ""
  | .arr l => l.isEmpty
  | .obj l => l.isEmpty

/-- `source["headers"]` as an object. -/
def getHeaderObj (fields : List (String × Json)) :
    Except UnpackErr (List (String × Json)) :=
  match dictGet fields "headers" with
  | some (.obj hf) => .ok hf
  | some _ => .error .keyError
  | none => .error .keyError

/-- `source["headers"][k]` expected to be a string. -/
def getStrVal (hf : List (String × Json)) (k : String) :
    Except UnpackErr String :=
  match dictGet hf k with
  | some (.str s) => .ok s
  | some _ => .error .keyError
  | none => .error .keyError

/-- `source["headers"][k]` expected to be an integer. -/
def getNumVal (hf : List (String × Json)) (k : String) :
    Except UnpackErr Int :=
  match dictGet hf k with
  | some (.num n) => .ok n
  | some _ => .error .keyError
  | none => .error .keyError

/-- `WaspCommand.unpack` at the JSON level (`src/wasp/wasp_types.py:182`):
read `uri`, look the verb up in `WASP_COMMAND_MAP` (populated by the
`@WaspCommandClass` decorators: handshake, download, filelist, command,
proxy), and run that variant's `from_dict`.  `WaspCommandHandshake` inherits
the base `from_dict`, which raises `NotImplementedError`. -/
def fromEnvelope (j : Json) : Except UnpackErr WaspCmd :=
  match j with
  | .obj fields =>
      match dictGet fields "uri" with
      | none => .error .noUri
      | some u =>
          if jsonFalsy u then .error .noUri
          else
            match u with
            | .str "handshake" => .error .notImplementedError
            | .str "download" => do
                let hf ← getHeaderObj fields
                let p ← getStrVal hf "File-Path"
                pure (mkDownload p)
            | .str "filelist" => do
                let hf ← getHeaderObj fields
                let p ← getStrVal hf "File-Path"
                pure (.filelist p)
            | .str "command" => do
                let hf ← getHeaderObj fields
                let c ← getStrVal hf "Command-Line"
                pure (.execute c)
            | .str "proxy" => do
                let hf ← getHeaderObj fields
                let dh ← getStrVal hf "Dest-Host"
                let dp ← getNumVal hf "Dest-Port"
                let rp ← getNumVal hf "Reverse-Port"
                pure (.proxy rp dh dp)
            | _ => .error .unimplemented
  | _ => .error .noUri

/-- A command object as it exists at runtime: the instance attribute
`command_id` and the variant data. -/
structure CmdInst where
  command_id : String
  cmd : WaspCmd
deriving DecidableEq, Repr

/-- Constructing a `WaspCommand` (any variant): `command_id` is a CLASS
attribute — `str(uuid.uuid4())` is evaluated once when the class definition
is executed (`src/wasp/wasp_types.py:158`) and `__init__` never assigns a
per-instance identifier, so every instance constructed in one process
carries the same `classId` value. -/
def mkWaspCommand (classId : String) (cmd : WaspCmd) : CmdInst :=
  { command_id := classId, cmd := cmd }

/-- How `WaspMalware.__init__` can fail. -/
inductive InitErr where
  /-- `ValueError` from an `Enum(...)` constructor; the string names the
  enum class. -/
  | valueError (which : String)
  /-- `AttributeError`: `.get` on a non-object. -/
  | attrError
deriving DecidableEq, Repr

/-- The fields `WaspMalware.__init__` assigns (directory provisioning and the
identity-record write are filesystem side effects, omitted here). -/
structure WaspAgentInfo where
  connection_type : String
  wasp_id : Json
  hostname : Option Json
  local_ip : Option Json
  architecture : String
  operating_system : Option Json
  platform : String

/-- `WaspConnectionType(v)`: valid values "main" and "child". -/
def parseConnectionType : Json → Except InitErr String
  | .str s =>
      if s = "main" ∨ s = "child" then .ok s
      else .error (.valueError "WaspConnectionType")
  | _ => .error (.valueError "WaspConnectionType")

/-- `WaspArchitecture(v)`: the only valid value is "x86_64". -/
def parseArchitecture : Json → Except InitErr String
  | .str s =>
      if s = "x86_64" then .ok s else .error (.valueError "WaspArchitecture")
  | _ => .error (.valueError "WaspArchitecture")

/-- `WaspPlatform(v)`: the only valid value is "Linux". -/
def parsePlatform : Json → Except InitErr String
  | .str s => if s = "Linux" then .ok s else .error (.valueError "WaspPlatform")
  | _ => .error (.valueError "WaspPlatform")

/-- The checks of `WaspMalware.__init__` (`src/wasp/wasp_types.py:63`) on the
survey headers, in source order: connection type (default "main"), then
architecture (default "Unknown" — never valid), then platform (no default —
`WaspPlatform(None)` raises).  `genId` models the `uuid.uuid4()` fallback for
a missing `Trojan-ID`. -/
def waspMalwareInitH (genId : String) (hf : List (String × Json)) :
    Except InitErr WaspAgentInfo :=
  match parseConnectionType ((dictGet hf "connection-Type").getD (.str "main")) with
  | .error e => .error e
  | .ok ct =>
      match parseArchitecture ((dictGet hf "Trojan-Machine").getD (.str "Unknown")) with
      | .error e => .error e
      | .ok arch =>
          match parsePlatform ((dictGet hf "Trojan-Platform").getD .null) with
          | .error e => .error e
          | .ok plat =>
              .ok { connection_type := ct,
                    wasp_id := (dictGet hf "Trojan-ID").getD (.str genId),
                    hostname := dictGet hf "Trojan-Hostname",
                    local_ip := dictGet hf "Trojan-IP",
                    architecture := arch,
                    operating_system := dictGet hf "Trojan-OSersion",
                    platform := plat }

/-- `WaspMalware.__init__` from the survey metadata:
`headers = meta.get("headers", {})`. -/
def waspMalwareInit (genId : String) (meta : Json) :
    Except InitErr WaspAgentInfo :=
  match meta with
  | .obj mf =>
      match dictGet mf "headers" with
      | some (.obj hf) => waspMalwareInitH genId hf
      | some _ => .error .attrError
      | none => waspMalwareInitH genId []
  | _ => .error .attrError

/-- A task file `command-{time_string}-{command_id}.json` in an agent's
tasking directory, holding the submitted command's `get_dict` document. -/
structure TaskFile where
  time_string : String
  cmd_id : String
  content : Json

/-- The tasking directory.  A directory is an unordered set of uniquely named
files; it is represented here by its listing sorted in filename order (the
order `sorted(iterdir())` produces), which `submitTask` maintains. -/
abbrev TaskDir := List TaskFile

/-- Sort key of a task file: `command-{time_string}-{command_id}.json`
compares like the pair (time_string, cmd_id) because the time string has a
fixed 15-character layout and the interpolated identifiers have a fixed
(uuid) length. -/
def fileKey (f : TaskFile) : String × String := (f.time_string, f.cmd_id)

/-- Lexicographic filename order on sort keys (strings compared by their
character sequences, the order `sorted()` uses on ASCII names). -/
def keyLt (a b : String × String) : Prop :=
  a.1.data < b.1.data ∨ (a.1 = b.1 ∧ a.2.data < b.2.data)

instance (a b : String × String) : Decidable (keyLt a b) := by
  unfold keyLt
  exact inferInstance

/-- Insert a file at its sorted position; a file with the same name is
overwritten (`Path.write_bytes` replaces existing content). -/
def dirInsert (f : TaskFile) : TaskDir → TaskDir
  | [] => [f]
  | g :: rest =>
      if fileKey f = fileKey g then f :: rest
      else if keyLt (fileKey f) (fileKey g) then f :: g :: rest
      else g :: dirInsert f rest

/-- `WaspMalware.submit_task` (`src/wasp/wasp_types.py:92`): write
`command-{time_string}-{command_id}.json` containing `command.pack()`.
The wall-clock time string (second granularity) is an explicit argument. -/
def submitTask (dir : TaskDir) (inst : CmdInst) (time_string : String) :
    TaskDir :=
  dirInsert ⟨time_string, inst.command_id, getDict inst.cmd⟩ dir

/-- `WaspMalware.get_tasks` (`src/wasp/wasp_types.py:112`): list the tasking
directory, sorted by filename, and unpack every file.  `unpack` builds a NEW
instance through `from_dict`, so its `command_id` is again the class default
`classId` — the identifier in the filename is not restored.  A file that does
not unpack raises. -/
def getTasks (classId : String) : TaskDir → Except UnpackErr (List CmdInst)
  | [] => .ok []
  | f :: rest =>
      match fromEnvelope f.content with
      | .error e => .error e
      | .ok w =>
          match getTasks classId rest with
          | .error e => .error e
          | .ok tl => .ok (mkWaspCommand classId w :: tl)

/-- The scan loop of `WaspMalware.remove_task` (`src/wasp/wasp_types.py:129`):
unpack files in sorted order and unlink the FIRST whose unpacked
`command_id` equals the target, then stop.  Every unpacked instance carries
the class default `classId`, so the first file matches exactly when the
target is `classId`. -/
def removeTaskGo (classId target : String) :
    TaskDir → Except UnpackErr TaskDir
  | [] => .ok []
  | f :: rest =>
      match fromEnvelope f.content with
      | .error e => .error e
      | .ok _ =>
          if classId = target then .ok rest
          else (removeTaskGo classId target rest).map (f :: ·)

/-- `WaspMalware.remove_task`, called by `WaspCommand.mark_complete` with the
completed command (whose `command_id` is the instance attribute). -/
def removeTask (classId : String) (dir : TaskDir) (inst : CmdInst) :
    Except UnpackErr TaskDir :=
  removeTaskGo classId inst.command_id dir

instance {ε α : Type} [DecidableEq ε] [DecidableEq α] :
    DecidableEq (Except ε α) := fun a b =>
  match a, b with
  | .error x, .error y =>
      if h : x = y then isTrue (by rw [h])
      else isFalse (fun he => by cases he; exact h rfl)
  | .error _, .ok _ => isFalse (fun he => by cases he)
  | .ok _, .error _ => isFalse (fun he => by cases he)
  | .ok x, .ok y =>
      if h : x = y then isTrue (by rw [h])
      else isFalse (fun he => by cases he; exact h rfl)

/-- The task file a submission writes. -/
def toFile (p : CmdInst × String) : TaskFile :=
  ⟨p.2, p.1.command_id, getDict p.1.cmd⟩

/-- The storage key a submission gets: its wall-clock second and the
submitting process's command identifier. -/
def subKey (p : CmdInst × String) : String × String := (p.2, p.1.command_id)

/-- The inner `for command in commands:` of `WaspServer.handle`
(`src/wasp/server.py:97`): send each snapshot command (a delivery, recorded
in the trace), receive its response — `replies i` tells whether delivery
number `i` got a non-empty response — and only then `submit_response` (the
response log is a separate append-only store, not modelled here) and
`mark_complete`.  Returns the directory, the next delivery index and the
delivery trace. -/
def forLoop (classId : String) (replies : Nat → Bool) (idx : Nat) :
    List CmdInst → TaskDir → Except UnpackErr (TaskDir × Nat × List CmdInst)
  | [], dir => .ok (dir, idx, [])
  | c :: cs, dir =>
      if replies idx then
        match removeTask classId dir c with
        | .error e => .error e
        | .ok dir2 =>
            match forLoop classId replies (idx + 1) cs dir2 with
            | .error e => .error e
            | .ok (d, i, tr) => .ok (d, i, c :: tr)
      else
        match forLoop classId replies (idx + 1) cs dir with
        | .error e => .error e
        | .ok (d, i, tr) => .ok (d, i, c :: tr)

/-- The `while self.wasp.has_tasks():` drain loop of `WaspServer.handle`
(`src/wasp/server.py:79`), fuel-indexed to observe finite prefixes of a loop
that need not terminate.  Each iteration re-reads the task list from the
directory, then runs the for-loop over that snapshot.  Returns the final
directory and the concatenated delivery trace. -/
def drain (classId : String) (replies : Nat → Bool) :
    Nat → TaskDir → Nat → Except UnpackErr (TaskDir × List CmdInst)
  | 0, dir, _ => .ok (dir, [])
  | fuel + 1, dir, idx =>
      match getTasks classId dir with
      | .error e => .error e
      | .ok cmds =>
          if cmds.length > 0 then
            match forLoop classId replies idx cmds dir with
            | .error e => .error e
            | .ok (dir2, idx2, tr) =>
                match drain classId replies fuel dir2 idx2 with
                | .error e => .error e
                | .ok (dir3, tr2) => .ok (dir3, tr ++ tr2)
          else .ok (dir, [])

end Wasp

namespace Wasp

set_option maxRecDepth 2048 in
theorem cipher_bytes_length : cipher_bytes.length = 255 := by decide

theorem simpleCipherGo_fst_length (offset : Nat) (data : List Nat) :
    (simpleCipherGo offset data).1.length = data.length := by
  induction data generalizing offset with
  | nil => rfl
  | cons b rest ih => simp [simpleCipherGo, ih]

theorem simpleCipherGo_snd (offset : Nat) (data : List Nat) (h : offset < 255) :
    (simpleCipherGo offset data).2 = (offset + data.length) % 255 := by
  induction data generalizing offset with
  | nil => simp [simpleCipherGo, Nat.mod_eq_of_lt h]
  | cons b rest ih =>
      have h' : (offset + 1) % 255 < 255 := Nat.mod_lt _ (by norm_num)
      simp only [simpleCipherGo, cipher_bytes_length, List.length_cons]
      rw [ih _ h']
      omega

theorem simpleCipherGo_involutive (offset : Nat) (data : List Nat) :
    (simpleCipherGo offset (simpleCipherGo offset data).1).1 = data := by
  induction data generalizing offset with
  | nil => rfl
  | cons b rest ih =>
      simp only [simpleCipherGo, List.cons.injEq]
      exact ⟨Nat.xor_cancel_right _ _, ih _⟩

theorem sendChunksGo_nil (c : WaspCipherSt) : sendChunksGo c [] = ([], c) := by
  rw [sendChunksGo]
  rfl

/-- Empty input emits exactly the (ciphered) zero-length terminator record:
two bytes. -/
theorem sendChunks_nil (c : WaspCipherSt) :
    (sendChunks c []).1 = (cipherRun c (packU16 0)).1 := by
  simp [sendChunks, sendChunksGo_nil]

theorem receiveChunksGo_cons_cons (c : WaspCipherSt) (b0 b1 : Nat)
    (rest acc : List Nat) :
    receiveChunksGo c (b0 :: b1 :: rest) acc =
      (let r := cipherRun c [b0, b1]
       if r.1 = [] then .errNoDecrypt
       else
         let len := r.1.getD 0 0 * 256 + r.1.getD 1 0
         if len = 0 then .ok acc r.2 rest
         else
           let rb := cipherRun r.2 (rest.take len)
           receiveChunksGo rb.2 (rest.drop len) (acc ++ rb.1)) := by
  rw [receiveChunksGo]

/-- The no-op cipher is unchanged by the send loop. -/
theorem sendChunksGo_empty_snd (x : List Nat) :
    (sendChunksGo .empty x).2 = .empty := by
  suffices H : ∀ n (x : List Nat), x.length ≤ n →
      (sendChunksGo .empty x).2 = .empty from H x.length x le_rfl
  intro n
  induction n with
  | zero =>
      intro x hx
      have : x = [] := List.eq_nil_of_length_eq_zero (Nat.le_zero.mp hx)
      subst this
      simp [sendChunksGo_nil]
  | succ n ih =>
      intro x hx
      by_cases hxe : x = []
      · subst hxe
        simp [sendChunksGo_nil]
      · rw [sendChunksGo, dif_neg hxe]
        have hpos : 0 < x.length := List.length_pos.mpr hxe
        exact ih (x.drop 255) (by simp [List.length_drop]; omega)

/-- Receiving one well-formed chunk record with the no-op cipher appends its
body and continues on the rest of the stream. -/
theorem receiveChunksGo_record_empty (ch w acc : List Nat)
    (hpos : 0 < ch.length) (h255 : ch.length ≤ 255) :
    receiveChunksGo .empty (packU16 ch.length ++ ch ++ w) acc
      = receiveChunksGo .empty w (acc ++ ch) := by
  have hsh : packU16 ch.length ++ ch ++ w
      = ch.length / 256 % 256 :: ch.length % 256 :: (ch ++ w) := by
    simp [packU16]
  rw [hsh, receiveChunksGo_cons_cons]
  simp only [cipherRun, List.getD_cons_zero, List.getD_cons_succ]
  rw [if_neg (by simp)]
  have hlv : ch.length / 256 % 256 * 256 + ch.length % 256 = ch.length := by
    omega
  rw [hlv, if_neg (by omega), List.take_left, List.drop_left]

/-- Receiving the zero-length terminator record with the no-op cipher returns
the accumulated bytes and stops. -/
theorem receiveChunksGo_term_empty (tail acc : List Nat) :
    receiveChunksGo .empty (packU16 0 ++ tail) acc = .ok acc .empty tail := by
  rw [show packU16 0 ++ tail = 0 :: 0 :: tail from rfl, receiveChunksGo_cons_cons]
  simp [cipherRun]

/-- With the no-op cipher on both sides, receiving what was sent returns the
original bytes and leaves the rest of the stream untouched. -/
theorem receiveChunksGo_sendChunksGo_empty (x tail acc : List Nat) :
    receiveChunksGo .empty ((sendChunksGo .empty x).1 ++ (packU16 0 ++ tail)) acc
      = .ok (acc ++ x) .empty tail := by
  suffices H : ∀ n (x acc : List Nat), x.length ≤ n →
      receiveChunksGo .empty
          ((sendChunksGo .empty x).1 ++ (packU16 0 ++ tail)) acc
        = .ok (acc ++ x) .empty tail from H x.length x acc le_rfl
  intro n
  induction n with
  | zero =>
      intro x acc hx
      have : x = [] := List.eq_nil_of_length_eq_zero (Nat.le_zero.mp hx)
      subst this
      simp [sendChunksGo_nil, receiveChunksGo_term_empty]
  | succ n ih =>
      intro x acc hx
      by_cases hxe : x = []
      · subst hxe
        simp [sendChunksGo_nil, receiveChunksGo_term_empty]
      · rw [sendChunksGo, dif_neg hxe]
        have hlen : (x.take 255).length = min 255 x.length := x.length_take 255
        have hpos : 0 < x.length := List.length_pos.mpr hxe
        simp only [cipherRun, List.append_assoc]
        rw [← List.append_assoc (packU16 (x.take 255).length)]
        rw [receiveChunksGo_record_empty _ _ _ (by omega) (by omega)]
        rw [ih (x.drop 255) _ (by simp [List.length_drop]; omega)]
        rw [List.append_assoc, List.take_append_drop]

/-- Round-trip law for the no-op cipher pair: `receiveChunks (sendChunks x)`
reassembles `x` exactly (the no-op pair is the configuration the controller's
negotiation always establishes for its own outbound direction). -/
theorem receiveChunks_sendChunks_empty (x : List Nat) :
    receiveChunks .empty (sendChunks .empty x).1 = .ok x .empty [] := by
  have h := receiveChunksGo_sendChunksGo_empty x [] []
  simp only [receiveChunks, sendChunks, sendChunksGo_empty_snd, cipherRun]
  simpa using h

theorem receiveChunksGo_nil (c : WaspCipherSt) (acc : List Nat) :
    receiveChunksGo c [] acc = .errNoLength := by
  rw [receiveChunksGo]

theorem cipherRun_fst_length (c : WaspCipherSt) (data : List Nat) :
    (cipherRun c data).1.length = data.length := by
  cases c with
  | empty => rfl
  | simple off => exact simpleCipherGo_fst_length off data

theorem cipherRun_fst_ne_nil (c : WaspCipherSt) (data : List Nat)
    (h : data ≠ []) : (cipherRun c data).1 ≠ [] := by
  intro he
  apply h
  have hl := cipherRun_fst_length c data
  rw [he] at hl
  exact List.eq_nil_of_length_eq_zero hl.symm

theorem take4_ne_nil (stream : List Nat) (h4 : 4 ≤ stream.length) :
    stream.take 4 ≠ [] := by
  intro he
  have h0 : (stream.take 4).length = 0 := by
    rw [he]
    rfl
  rw [List.length_take] at h0
  omega

theorem take4_length (stream : List Nat) (h4 : 4 ≤ stream.length) :
    (stream.take 4).length = 4 := by
  rw [List.length_take]
  omega

/-- `receive_result` past the length checks, with a nonzero length: the body
branch. -/
theorem receiveResult_length_pos (c : WaspCipherSt) (stream : List Nat)
    (h4 : 4 ≤ stream.length)
    (hnz : unpackU32 (cipherRun c (stream.take 4)).1 ≠ 0) :
    receiveResult c stream =
      (let r := cipherRun c (stream.take 4)
       let len := unpackU32 r.1
       let rest := stream.drop 4
       let body := rest.take len
       let rb := cipherRun r.2 body
       let rest2 := rest.drop len
       match bytesToAscii rb.1 with
       | none => .errUnicode
       | some chars =>
           match jsonLoads chars with
           | none => .errNotJson
           | some meta =>
               match transferEncoding meta with
               | none => .errAttr
               | some te =>
                   if isChunkedVal te then
                     match receiveChunks rb.2 rest2 with
                     | .ok d c2 rest3 => .ok meta d c2 rest3
                     | e => .errChunk e
                   else .ok meta [] rb.2 rest2) := by
  have hne := take4_ne_nil stream h4
  have htl := take4_length stream h4
  simp only [receiveResult]
  rw [if_neg hne, if_neg (cipherRun_fst_ne_nil c _ hne), if_neg (by omega),
    if_neg hnz]

theorem keyLt_irrefl (k : String × String) : ¬ keyLt k k := by
  rintro (h | ⟨-, h⟩) <;> exact lt_irrefl _ h

theorem keyLt_asymm (a b : String × String) (hab : keyLt a b) :
    ¬ keyLt b a := by
  rintro (h | ⟨he, h⟩) <;> rcases hab with h' | ⟨he', h'⟩
  · exact lt_asymm h h'
  · rw [he'] at h
    exact lt_irrefl _ h
  · rw [he] at h'
    exact lt_irrefl _ h'
  · exact lt_asymm h h'

theorem keyLt_ne (a b : String × String) (hab : keyLt a b) : a ≠ b := by
  intro he
  rw [he] at hab
  exact keyLt_irrefl b hab

theorem dirInsert_append (f : TaskFile) (dir : TaskDir)
    (hlt : ∀ g ∈ dir, keyLt (fileKey g) (fileKey f)) :
    dirInsert f dir = dir ++ [f] := by
  induction dir with
  | nil => rfl
  | cons g rest ih =>
      have hgf := hlt g (by simp)
      rw [dirInsert, if_neg (Ne.symm (keyLt_ne _ _ hgf)),
        if_neg (keyLt_asymm _ _ hgf)]
      rw [ih (fun g' hg' => hlt g' (by simp [hg']))]
      rfl

theorem foldl_submit_ordered (subs : List (CmdInst × String)) :
    ∀ dir : TaskDir,
      (∀ g ∈ dir, ∀ p ∈ subs, keyLt (fileKey g) (subKey p)) →
      (subs.map subKey).Pairwise keyLt →
      subs.foldl (fun d p => submitTask d p.1 p.2) dir
        = dir ++ subs.map toFile := by
  induction subs with
  | nil =>
      intro dir _ _
      simp
  | cons p rest ih =>
      intro dir hless hpw
      simp only [List.map_cons] at hpw
      have hpw' := List.pairwise_cons.mp hpw
      simp only [List.foldl_cons, List.map_cons]
      have h1 : submitTask dir p.1 p.2 = dir ++ [toFile p] :=
        dirInsert_append _ _ (fun g hg => hless g hg p (by simp))
      rw [h1, ih (dir ++ [toFile p]) ?_ hpw'.2]
      · simp
      · intro g hg q hq
        rcases List.mem_append.mp hg with hgd | hgp
        · exact hless g hgd q (by simp [hq])
        · have hgq : g = toFile p := by simpa using hgp
          subst hgq
          exact hpw'.1 (subKey q) (List.mem_map_of_mem _ hq)

theorem getTasks_map_toFile (classId : String) (subs : List (CmdInst × String))
    (ws : CmdInst × String → WaspCmd)
    (hdec : ∀ p ∈ subs, fromEnvelope (getDict p.1.cmd) = .ok (ws p)) :
    getTasks classId (subs.map toFile)
      = .ok (subs.map (fun p => mkWaspCommand classId (ws p))) := by
  induction subs with
  | nil => rfl
  | cons p rest ih =>
      simp only [List.map_cons, getTasks]
      rw [show (toFile p).content = getDict p.1.cmd from rfl, hdec p (by simp)]
      rw [ih (fun q hq => hdec q (by simp [hq]))]

theorem getTasks_nil_of_ok_nil (classId : String) (dir : TaskDir)
    (h : getTasks classId dir = .ok []) : dir = [] := by
  cases dir with
  | nil => rfl
  | cons f rest =>
      simp only [getTasks] at h
      cases hfe : fromEnvelope f.content with
      | error e =>
          rw [hfe] at h
          exact absurd h (by simp)
      | ok w =>
          rw [hfe] at h
          cases hgt : getTasks classId rest with
          | error e =>
              rw [hgt] at h
              exact absurd h (by simp)
          | ok tl =>
              rw [hgt] at h
              exact absurd h (by simp)

theorem forLoop_completes (classId : String) (replies : Nat → Bool)
    (hr : ∀ i, replies i = true) :
    ∀ (dir : TaskDir) (cmds : List CmdInst) (idx : Nat),
      getTasks classId dir = .ok cmds →
      forLoop classId replies idx cmds dir
        = .ok ([], idx + cmds.length, cmds) := by
  intro dir
  induction dir with
  | nil =>
      intro cmds idx h
      have hc : cmds = [] := by
        simp only [getTasks] at h
        exact (Except.ok.inj h).symm
      subst hc
      rfl
  | cons f rest ih =>
      intro cmds idx h
      simp only [getTasks] at h
      cases hfe : fromEnvelope f.content with
      | error e =>
          rw [hfe] at h
          exact absurd h (by simp)
      | ok w =>
          rw [hfe] at h
          cases hgt : getTasks classId rest with
          | error e =>
              rw [hgt] at h
              exact absurd h (by simp)
          | ok tl =>
              rw [hgt] at h
              have hc : cmds = mkWaspCommand classId w :: tl :=
                (Except.ok.inj h).symm
              subst hc
              simp only [forLoop, hr idx, if_true]
              have hrm : removeTask classId (f :: rest)
                  (mkWaspCommand classId w) = .ok rest := by
                simp [removeTask, removeTaskGo, mkWaspCommand, hfe]
              rw [hrm]
              simp only [ih tl (idx + 1) hgt, List.length_cons]
              have harith : idx + 1 + tl.length = idx + (tl.length + 1) := by
                omega
              rw [harith]

theorem drain_nil (classId : String) (replies : Nat → Bool) (fuel idx : Nat) :
    drain classId replies fuel [] idx = .ok ([], []) := by
  cases fuel <;> rfl

theorem parseArchitecture_not_ok (v : Json) (hv : v ≠ .str "x86_64") :
    parseArchitecture v = .error (.valueError "WaspArchitecture") := by
  cases v with
  | str s =>
      by_cases hs : s = "x86_64"
      · exact absurd (by rw [hs]) hv
      · simp [parseArchitecture, hs]
  | null => rfl
  | bool b => rfl
  | num n => rfl
  | arr l => rfl
  | obj l => rfl

theorem parsePlatform_not_ok (v : Json) (hv : v ≠ .str "Linux") :
    parsePlatform v = .error (.valueError "WaspPlatform") := by
  cases v with
  | str s =>
      by_cases hs : s = "Linux"
      · exact absurd (by rw [hs]) hv
      · simp [parsePlatform, hs]
  | null => rfl
  | bool b => rfl
  | num n => rfl
  | arr l => rfl
  | obj l => rfl

theorem parseArchitecture_ok_eq (v : Json) (r : String)
    (h : parseArchitecture v = .ok r) : r = "x86_64" := by
  cases v with
  | str s =>
      simp only [parseArchitecture] at h
      split at h
      · next hs =>
          rw [← Except.ok.inj h]
          exact hs
      · exact absurd h (by simp)
  | null => exact absurd h (by simp [parseArchitecture])
  | bool b => exact absurd h (by simp [parseArchitecture])
  | num n => exact absurd h (by simp [parseArchitecture])
  | arr l => exact absurd h (by simp [parseArchitecture])
  | obj l => exact absurd h (by simp [parseArchitecture])

theorem parsePlatform_ok_eq (v : Json) (r : String)
    (h : parsePlatform v = .ok r) : r = "Linux" := by
  cases v with
  | str s =>
      simp only [parsePlatform] at h
      split at h
      · next hs =>
          rw [← Except.ok.inj h]
          exact hs
      · exact absurd h (by simp)
  | null => exact absurd h (by simp [parsePlatform])
  | bool b => exact absurd h (by simp [parsePlatform])
  | num n => exact absurd h (by simp [parsePlatform])
  | arr l => exact absurd h (by simp [parsePlatform])
  | obj l => exact absurd h (by simp [parsePlatform])

theorem waspMalwareInit_headers (genId : String) (mf hf : List (String × Json))
    (hh : dictGet mf "headers" = some (.obj hf)) :
    waspMalwareInit genId (.obj mf) = waspMalwareInitH genId hf := by
  simp [waspMalwareInit, hh]

end Wasp

/-- C5: applying the XOR-stream cipher twice from the same starting offset
in [0,255) reproduces the input, and the offset afterwards has advanced by the
number of bytes processed modulo the keystream length (255). -/
theorem C5_xor_cipher_self_inverse (x : List Nat) (o : Nat) (h : o < 255) :
    (Wasp.cipherRun (.simple o) (Wasp.cipherRun (.simple o) x).1).1 = x ∧
    (Wasp.cipherRun (.simple o) x).2 = .simple ((o + x.length) % 255) := by
  constructor
  · exact Wasp.simpleCipherGo_involutive o x
  · simp [Wasp.cipherRun, Wasp.simpleCipherGo_snd o x h]

/-- Witness for C5 at offset 7 and a concrete 3-byte input. -/
theorem C5_xor_cipher_self_inverse_witness :
    (Wasp.cipherRun (.simple 7) (Wasp.cipherRun (.simple 7) [0, 170, 255]).1).1
        = [0, 170, 255] ∧
    (Wasp.cipherRun (.simple 7) [0, 170, 255]).2 = .simple ((7 + 3) % 255) :=
  C5_xor_cipher_self_inverse [0, 170, 255] 7 (by decide)

set_option maxRecDepth 4096

/-- Claim C1: the claim says every two Command instances constructed in the
same process have distinct identifiers.  The code violates it: `command_id`
is a class attribute (`str(uuid.uuid4())` evaluated once at class-definition
time) and `__init__` never reassigns it, so ALL instances share the one
class-default value — the first conjunct proves the sharing, the second
refutes the claim's distinctness statement. -/
theorem C1_command_id_shared_across_instances :
    (∀ (classId : String) (c1 c2 : Wasp.WaspCmd),
      (Wasp.mkWaspCommand classId c1).command_id
        = (Wasp.mkWaspCommand classId c2).command_id) ∧
    ¬ (∀ (classId : String) (c1 c2 : Wasp.WaspCmd), c1 ≠ c2 →
        (Wasp.mkWaspCommand classId c1).command_id
          ≠ (Wasp.mkWaspCommand classId c2).command_id) := by
  refine ⟨fun _ _ _ => rfl, fun h => ?_⟩
  exact h "id" .handshake (.filelist "/tmp") (by simp) rfl

/-- Claim C2: the chunk round-trip law fails for a synchronized XOR cipher
pair, because `send_chunks` transmits each per-chunk length UNciphered (the
computed `chunk_size_encrypted` is discarded) while still advancing the
sender's cipher state: at the failing input x = [0] with both ciphers
`WaspSimpleCipher(0)`, the receiver deciphers the plaintext length 1 into
63457, swallows the rest of the stream as body, and then dies on the missing
next length — it does not return x. -/
theorem C2_chunk_roundtrip_fails_for_xor_pair :
    Wasp.receiveChunks (.simple 0) (Wasp.sendChunks (.simple 0) [0]).1
        = .errNoLength ∧
    ∀ (c : Wasp.WaspCipherSt) (rest : List Nat),
      Wasp.ChunkOutcome.errNoLength ≠ .ok [0] c rest := by
  constructor
  · have hsend : Wasp.sendChunks (.simple 0) [0]
        = ([0, 1, 201, 178, 155], .simple 5) := by
      rw [Wasp.sendChunks, Wasp.sendChunksGo, dif_neg (by simp)]
      rw [show List.drop 255 [0] = ([] : List Nat) from by decide]
      simp only [Wasp.sendChunksGo_nil]
      decide
    rw [hsend, Wasp.receiveChunks, Wasp.receiveChunksGo_cons_cons]
    rw [show Wasp.cipherRun (.simple 0) [0, 1] = ([247, 225], .simple 2) from
      by decide]
    norm_num [Wasp.cipherRun, Wasp.simpleCipherGo, Wasp.cipher_bytes]
    simp [Wasp.receiveChunksGo_nil]
  · exact fun _ _ h => nomatch h

/-- Claim C3 (counterexample): two tasks submitted within the same wall-clock
second — here by two operator processes whose class-default identifiers are
"b" (first submission, command `x`) and "a" (second submission, command `y`)
— are listed by `get_tasks` in filename order [y-task, x-task], not in
submission order [x-task, y-task]. -/
theorem C3_counterexample_same_second_inversion :
    Wasp.getTasks "d"
        (Wasp.submitTask
          (Wasp.submitTask [] ⟨"b", .execute "x"⟩ "20260101-000000")
          ⟨"a", .execute "y"⟩ "20260101-000000")
      = .ok [Wasp.mkWaspCommand "d" (.execute "y"),
             Wasp.mkWaspCommand "d" (.execute "x")] ∧
    Wasp.mkWaspCommand "d" (.execute "y")
      ≠ Wasp.mkWaspCommand "d" (.execute "x") :=
  ⟨rfl, by simp [Wasp.mkWaspCommand]⟩

/-- Claim C3 (amended): the pending-task listing is re-read from the durable
store on each call and returns the stored tasks in storage-key order
(timestamp string, then command identifier); whenever the submission keys are
strictly increasing — in particular whenever submissions fall in distinct
seconds — this equals submission order: submitting t1, ..., tn in key order
into an empty directory stores exactly their files in that order, and
`get_tasks` returns their decoded commands in that same order. -/
theorem C3_pending_listing_in_submission_key_order (classId : String)
    (subs : List (Wasp.CmdInst × String))
    (ws : Wasp.CmdInst × String → Wasp.WaspCmd)
    (hinc : (subs.map Wasp.subKey).Pairwise Wasp.keyLt)
    (hdec : ∀ p ∈ subs, Wasp.fromEnvelope (Wasp.getDict p.1.cmd) = .ok (ws p)) :
    subs.foldl (fun d p => Wasp.submitTask d p.1 p.2) []
        = subs.map Wasp.toFile ∧
    Wasp.getTasks classId (subs.foldl (fun d p => Wasp.submitTask d p.1 p.2) [])
        = .ok (subs.map (fun p => Wasp.mkWaspCommand classId (ws p))) := by
  have h1 : subs.foldl (fun d p => Wasp.submitTask d p.1 p.2) []
      = subs.map Wasp.toFile := by
    have h := Wasp.foldl_submit_ordered subs [] (by simp) hinc
    simpa using h
  refine ⟨h1, ?_⟩
  rw [h1]
  exact Wasp.getTasks_map_toFile classId subs ws hdec

/-- Witness for C3 (amended) at two concrete submissions in successive
seconds. -/
theorem C3_pending_listing_witness :
    (([((⟨"i1", Wasp.WaspCmd.execute "a"⟩ : Wasp.CmdInst), "20260101-000000"),
       (⟨"i2", Wasp.WaspCmd.execute "b"⟩, "20260101-000001")].map
        Wasp.subKey).Pairwise Wasp.keyLt) ∧
    Wasp.getTasks "d"
        ([((⟨"i1", Wasp.WaspCmd.execute "a"⟩ : Wasp.CmdInst), "20260101-000000"),
          (⟨"i2", Wasp.WaspCmd.execute "b"⟩, "20260101-000001")].foldl
          (fun d p => Wasp.submitTask d p.1 p.2) [])
      = .ok [Wasp.mkWaspCommand "d" (.execute "a"),
             Wasp.mkWaspCommand "d" (.execute "b")] :=
  ⟨by decide,
   (C3_pending_listing_in_submission_key_order "d"
      [(⟨"i1", .execute "a"⟩, "20260101-000000"),
       (⟨"i2", .execute "b"⟩, "20260101-000001")]
      (fun p => p.1.cmd) (by decide) (by decide)).2⟩

/-- Claim C4 (counterexample): with one pending task and an agent that answers
every delivery with the empty (no-content) response, the task is never
completed and the same connection's drain loop delivers it AGAIN on its next
pass — the delivery trace over two passes contains the same task twice,
refuting "no pending task is ever sent to the agent twice within a single
drain loop". -/
theorem C4_counterexample_redelivery_on_empty_response :
    Wasp.drain "d" (fun _ => false) 2
        [⟨"t", "d", Wasp.getDict (.execute "x")⟩] 0
      = .ok ([⟨"t", "d", Wasp.getDict (.execute "x")⟩],
          [Wasp.mkWaspCommand "d" (.execute "x"),
           Wasp.mkWaspCommand "d" (.execute "x")]) := rfl

/-- Claim C4 (amended): provided every received response is non-empty, each
delivered task is completed (removed) before the pending set is consulted
again and the drain delivers every pending task exactly once, in listing
order: the whole drain's delivery trace equals the initial pending snapshot
and the directory ends empty.  (A task whose response is empty stays pending
— the "remains pending until its response is processed" half of the claim —
but is then redelivered by the same drain loop, as the counterexample
shows.) -/
theorem C4_single_delivery_when_responses_nonempty (classId : String)
    (replies : Nat → Bool) (fuel idx : Nat) (dir : Wasp.TaskDir)
    (cmds : List Wasp.CmdInst)
    (hr : ∀ i, replies i = true)
    (hg : Wasp.getTasks classId dir = .ok cmds) :
    Wasp.drain classId replies (fuel + 1) dir idx = .ok ([], cmds) := by
  simp only [Wasp.drain, hg]
  by_cases hc : cmds.length > 0
  · simp only [if_pos hc,
      Wasp.forLoop_completes classId replies hr dir cmds idx hg,
      Wasp.drain_nil, List.append_nil]
  · have hcm : cmds = [] := List.eq_nil_of_length_eq_zero (by omega)
    subst hcm
    rw [if_neg hc, Wasp.getTasks_nil_of_ok_nil classId dir hg]

/-- Witness for C4 (amended) at one pending task and all-non-empty
responses. -/
theorem C4_single_delivery_witness :
    (∀ i, (fun _ => true : Nat → Bool) i = true) ∧
    Wasp.getTasks "d" [⟨"t", "d", Wasp.getDict (.execute "x")⟩]
      = .ok [Wasp.mkWaspCommand "d" (.execute "x")] ∧
    Wasp.drain "d" (fun _ => true) 1 [⟨"t", "d", Wasp.getDict (.execute "x")⟩] 0
      = .ok ([], [Wasp.mkWaspCommand "d" (.execute "x")]) :=
  ⟨fun _ => rfl, rfl,
   C4_single_delivery_when_responses_nonempty "d" (fun _ => true) 0 0
     [⟨"t", "d", Wasp.getDict (.execute "x")⟩]
     [Wasp.mkWaspCommand "d" (.execute "x")] (fun _ => rfl) rfl⟩

/-- Claim C6 (counterexample): a frame that declares a 4-byte body on a stream
that ends right after the length: the code attempts the JSON parse of the
empty body and fails with the "Should be in chunked mode" framing error
(`errNotJson`), NOT with the distinct truncated-read error (`errNoLength`)
that the claim's `TruncatedFrame` requires for truncation. -/
theorem C6_counterexample_truncated_body_is_framing_error :
    Wasp.receiveResult .empty [0, 0, 0, 4] = .errNotJson ∧
    Wasp.ReceiveOutcome.errNotJson ≠ .errNoLength :=
  ⟨rfl, fun h => nomatch h⟩

/-- Claim C6 (amended): if the connection closes before ANY length byte is
read, decode fails with the missing-length error; a frame with a nonzero
declared length whose received (ASCII) body bytes — whether complete,
truncated, or absent — do not parse as JSON fails with the framing error
("Should be in chunked mode"), not with a distinct truncated-frame error;
neither case silently succeeds. -/
theorem C6_decode_error_classification (c : Wasp.WaspCipherSt)
    (stream : List Nat) :
    (stream = [] → Wasp.receiveResult c stream = .errNoLength) ∧
    (4 ≤ stream.length →
      Wasp.unpackU32 (Wasp.cipherRun c (stream.take 4)).1 ≠ 0 →
      ∀ chars : List Char,
        Wasp.bytesToAscii (Wasp.cipherRun (Wasp.cipherRun c (stream.take 4)).2
            ((stream.drop 4).take
              (Wasp.unpackU32 (Wasp.cipherRun c (stream.take 4)).1))).1
          = some chars →
        Wasp.jsonLoads chars = none →
        Wasp.receiveResult c stream = .errNotJson) := by
  constructor
  · intro he
    subst he
    rfl
  · intro h4 hnz chars hasc hjson
    rw [Wasp.receiveResult_length_pos c stream h4 hnz]
    simp only [hasc, hjson]

/-- Witness for C6 (amended): the empty stream, and the concrete truncated
frame [0,0,0,4]. -/
theorem C6_decode_error_witness :
    Wasp.receiveResult .empty [] = .errNoLength ∧
    (4 ≤ ([0, 0, 0, 4] : List Nat).length ∧
     Wasp.receiveResult .empty [0, 0, 0, 4] = .errNotJson) :=
  ⟨(C6_decode_error_classification .empty []).1 rfl,
   by decide,
   (C6_decode_error_classification .empty [0, 0, 0, 4]).2 (by decide)
     (by decide) [] rfl rfl⟩

/-- Claim C7 (counterexample): `WaspCommandHandshake` never overrides
`from_dict`, so decoding the envelope produced by encoding a handshake
command raises `NotImplementedError` instead of returning the command — the
"every command variant" mutual-inverse claim is false at the handshake
variant. -/
theorem C7_counterexample_handshake_decode :
    Wasp.fromEnvelope (Wasp.getDict .handshake)
        = .error .notImplementedError ∧
    ∀ cmd : Wasp.WaspCmd,
      (Except.error Wasp.UnpackErr.notImplementedError
          : Except Wasp.UnpackErr Wasp.WaspCmd) ≠ .ok cmd :=
  ⟨rfl, fun _ h => nomatch h⟩

/-- Claim C7 (amended): for every variant EXCEPT handshake, decoding the
encoded envelope reproduces the command for all constructible field values,
and the concrete download example (path /etc/passwd, breakpoint=true,
begin=0, end=1024 — exactly the constructor's values) round-trips to
identical field values. -/
theorem C7_roundtrip_all_variants_except_handshake :
    (∀ p, Wasp.fromEnvelope (Wasp.getDict (Wasp.mkDownload p))
        = .ok (Wasp.mkDownload p)) ∧
    (∀ p, Wasp.fromEnvelope (Wasp.getDict (.filelist p)) = .ok (.filelist p)) ∧
    (∀ s, Wasp.fromEnvelope (Wasp.getDict (.execute s)) = .ok (.execute s)) ∧
    (∀ rp dh dp, Wasp.fromEnvelope (Wasp.getDict (.proxy rp dh dp))
        = .ok (.proxy rp dh dp)) ∧
    Wasp.fromEnvelope (Wasp.getDict (Wasp.mkDownload "/etc/passwd"))
        = .ok (.download "/etc/passwd" true 0 1024) :=
  ⟨fun _ => rfl, fun _ => rfl, fun _ => rfl, fun _ _ _ => rfl, rfl⟩

/-- Claim C8: a frame whose deciphered 4-byte length field decodes to 0 yields
the no-content outcome — a valid result distinct from the decode errors —
whatever bytes follow on the stream, and the JSON parse is never reached. -/
theorem C8_zero_length_frame_is_no_content (c : Wasp.WaspCipherSt)
    (stream : List Nat) (h4 : 4 ≤ stream.length)
    (hz : Wasp.unpackU32 (Wasp.cipherRun c (stream.take 4)).1 = 0) :
    Wasp.receiveResult c stream = .noContent ∧
    Wasp.ReceiveOutcome.noContent ≠ .errNotJson := by
  refine ⟨?_, fun h => nomatch h⟩
  have hne := Wasp.take4_ne_nil stream h4
  have htl := Wasp.take4_length stream h4
  simp only [Wasp.receiveResult]
  rw [if_neg hne, if_neg (Wasp.cipherRun_fst_ne_nil c _ hne),
    if_neg (by omega), if_pos hz]

/-- Witness for C8 at a zero-length frame followed by stray garbage bytes
that are not valid JSON. -/
theorem C8_zero_length_witness :
    4 ≤ ([0, 0, 0, 0, 9, 9] : List Nat).length ∧
    Wasp.unpackU32 (Wasp.cipherRun .empty (([0, 0, 0, 0, 9, 9] :
        List Nat).take 4)).1 = 0 ∧
    Wasp.receiveResult .empty [0, 0, 0, 0, 9, 9] = .noContent :=
  ⟨by decide, by decide,
   (C8_zero_length_frame_is_no_content .empty [0, 0, 0, 0, 9, 9]
     (by decide) (by decide)).1⟩

/-- Claim C9: resolving the agent identity from a survey whose headers omit
"Trojan-Machine", or carry any "Trojan-Machine" other than "x86_64", or any
"Trojan-Platform" other than "Linux", raises an error instead of creating the
agent; and every successful creation carries exactly architecture "x86_64"
and platform "Linux". -/
theorem C9_survey_identity_validation (genId : String)
    (mf hf : List (String × Wasp.Json))
    (hh : Wasp.dictGet mf "headers" = some (.obj hf)) :
    (Wasp.dictGet hf "Trojan-Machine" = none →
      ∃ e, Wasp.waspMalwareInit genId (.obj mf) = .error e) ∧
    (∀ v, Wasp.dictGet hf "Trojan-Machine" = some v → v ≠ .str "x86_64" →
      ∃ e, Wasp.waspMalwareInit genId (.obj mf) = .error e) ∧
    (∀ v, Wasp.dictGet hf "Trojan-Platform" = some v → v ≠ .str "Linux" →
      ∃ e, Wasp.waspMalwareInit genId (.obj mf) = .error e) ∧
    (∀ info, Wasp.waspMalwareInit genId (.obj mf) = .ok info →
      info.architecture = "x86_64" ∧ info.platform = "Linux") := by
  rw [Wasp.waspMalwareInit_headers genId mf hf hh]
  refine ⟨?_, ?_, ?_, ?_⟩
  · intro hm
    cases hct : Wasp.parseConnectionType
        ((Wasp.dictGet hf "connection-Type").getD (.str "main")) with
    | error e => exact ⟨e, by simp [Wasp.waspMalwareInitH, hct]⟩
    | ok ct =>
        refine ⟨.valueError "WaspArchitecture", ?_⟩
        have harch := Wasp.parseArchitecture_not_ok (.str "Unknown") (by simp)
        simp [Wasp.waspMalwareInitH, hct, hm, harch]
  · intro v hv hne
    cases hct : Wasp.parseConnectionType
        ((Wasp.dictGet hf "connection-Type").getD (.str "main")) with
    | error e => exact ⟨e, by simp [Wasp.waspMalwareInitH, hct]⟩
    | ok ct =>
        refine ⟨.valueError "WaspArchitecture", ?_⟩
        have harch := Wasp.parseArchitecture_not_ok v hne
        simp [Wasp.waspMalwareInitH, hct, hv, harch]
  · intro v hv hne
    cases hct : Wasp.parseConnectionType
        ((Wasp.dictGet hf "connection-Type").getD (.str "main")) with
    | error e => exact ⟨e, by simp [Wasp.waspMalwareInitH, hct]⟩
    | ok ct =>
        cases harch : Wasp.parseArchitecture
            ((Wasp.dictGet hf "Trojan-Machine").getD (.str "Unknown")) with
        | error e => exact ⟨e, by simp [Wasp.waspMalwareInitH, hct, harch]⟩
        | ok arch =>
            refine ⟨.valueError "WaspPlatform", ?_⟩
            have hplat := Wasp.parsePlatform_not_ok v hne
            simp [Wasp.waspMalwareInitH, hct, harch, hv, hplat]
  · intro info hok
    unfold Wasp.waspMalwareInitH at hok
    split at hok
    · exact absurd hok (by simp)
    next ct hct =>
      split at hok
      · exact absurd hok (by simp)
      next arch harch =>
        split at hok
        · exact absurd hok (by simp)
        next plat hplat =>
          have h1 := Wasp.parseArchitecture_ok_eq _ _ harch
          have h2 := Wasp.parsePlatform_ok_eq _ _ hplat
          rw [← Except.ok.inj hok]
          exact ⟨h1, h2⟩

/-- Witness for C9 at a survey declaring machine "arm64": creation fails. -/
theorem C9_survey_identity_witness :
    Wasp.dictGet [("headers", Wasp.Json.obj
        [("Trojan-Machine", Wasp.Json.str "arm64"),
         ("Trojan-Platform", Wasp.Json.str "Linux")])] "headers"
      = some (.obj [("Trojan-Machine", Wasp.Json.str "arm64"),
                    ("Trojan-Platform", Wasp.Json.str "Linux")]) ∧
    ∃ e, Wasp.waspMalwareInit "g"
        (.obj [("headers", Wasp.Json.obj
          [("Trojan-Machine", Wasp.Json.str "arm64"),
           ("Trojan-Platform", Wasp.Json.str "Linux")])]) = .error e :=
  ⟨rfl,
   (C9_survey_identity_validation "g"
      [("headers", Wasp.Json.obj
        [("Trojan-Machine", Wasp.Json.str "arm64"),
         ("Trojan-Platform", Wasp.Json.str "Linux")])]
      [("Trojan-Machine", Wasp.Json.str "arm64"),
       ("Trojan-Platform", Wasp.Json.str "Linux")] rfl).2.1
     (.str "arm64") rfl (by simp)⟩

/-- Claim C10: every successfully decoded response envelope whose headers do
not declare `Transfer-Encoding: chunked` carries the empty payload — payload
bytes only ever come through the chunk sub-protocol. -/
theorem C10_nonchunked_payload_empty (c : Wasp.WaspCipherSt)
    (stream : List Nat) (meta : Wasp.Json) (data : List Nat)
    (c2 : Wasp.WaspCipherSt) (rest : List Nat)
    (hok : Wasp.receiveResult c stream = .ok meta data c2 rest)
    (hte : ∀ te, Wasp.transferEncoding meta = some te →
      Wasp.isChunkedVal te = false) :
    data = [] := by
  simp only [Wasp.receiveResult] at hok
  split at hok
  · exact absurd hok (by simp)
  split at hok
  · exact absurd hok (by simp)
  split at hok
  · exact absurd hok (by simp)
  split at hok
  · exact absurd hok (by simp)
  split at hok
  · exact absurd hok (by simp)
  next chars hchars =>
    split at hok
    · exact absurd hok (by simp)
    next meta2 hmeta =>
      split at hok
      · exact absurd hok (by simp)
      next te hte2 =>
        split at hok
        · split at hok
          · injection hok with h1 h2 h3 h4
            subst h1
            have := hte te hte2
            simp_all
          · exact absurd hok (by simp)
        · injection hok with h1 h2
          exact h2.symm ▸ rfl

/-- Witness for C10 at a concrete envelope `{}` with no Transfer-Encoding
header. -/
theorem C10_nonchunked_payload_witness :
    Wasp.receiveResult .empty [0, 0, 0, 2, 123, 125]
      = .ok (.obj []) [] .empty [] ∧
    ([] : List Nat) = [] :=
  ⟨rfl,
   C10_nonchunked_payload_empty .empty [0, 0, 0, 2, 123, 125] (.obj [])
     [] .empty [] rfl (fun te h => by cases h; rfl)⟩
